import Mathlib

/-!
Verification of the SSD detector assembly and forward pipeline
(`ssds/modeling/ssds/ssd.py`).

The tensor engine is modelled symbolically: a tensor is an expression tree
(`TExpr`) recording which operations produced it, and `shapeOf` gives the
shape semantics of such an expression relative to an environment assigning
a shape transformer to every backbone/extra stage (the stages themselves are
external collaborators).  The module `SSD`, its `forward` method, and the
builders `add_extras` / `build_ssd` are translated directly from the source;
the external `parse_feature_layer` collaborator is a function parameter.
-/

namespace SSDS

/-- A tensor shape, e.g. `[batch, channels, height, width]`. -/
abbrev Shape := List Nat

/-- The static data of an `nn.Conv2d` layer as used by the builder
(stride/dilation/groups keep their defaults in the source). -/
structure Conv2d where
  in_channels : Nat
  out_channels : Nat
  kernel_size : Nat
  padding : Nat
  deriving DecidableEq, Repr

/-- One entry of `feature_layer[0]`: in the source these are Python ints
(backbone stage indices to tap) or strings (descriptors of extra blocks,
such as "S" or ""). -/
inductive LayerDesc where
  | num (k : Nat)
  | tag (s : String)
  deriving DecidableEq, Repr

/-- Symbolic tensor expressions: the operations the forward pass applies.
`stage i t` is the application of backbone/extra stage `i`; `conv c t`
a head convolution; `viewB s c t` is `t.view(s.size(0), c, -1)`;
`cat2 ts` is `torch.cat(ts, 2)`; `contig t` is `t.contiguous()`;
`softmax d t` is `nn.Softmax(dim=d)(t)`. -/
inductive TExpr where
  | input : TExpr
  | stage (id : Nat) (t : TExpr) : TExpr
  | conv (c : Conv2d) (t : TExpr) : TExpr
  | viewB (src : TExpr) (c : Nat) (t : TExpr) : TExpr
  | cat2 (ts : List TExpr) : TExpr
  | contig (t : TExpr) : TExpr
  | softmax (dim : Int) (t : TExpr) : TExpr

/-- Shape semantics of `nn.Conv2d` application with stride 1: requires a
rank-4 input whose channel count matches, and a padded extent at least the
kernel size; spatial output extent is `n + 2*padding - kernel + 1`. -/
def convShape (c : Conv2d) : Shape → Option Shape
  | [b, ch, h, w] =>
    if ch = c.in_channels ∧ c.kernel_size ≤ h + 2 * c.padding ∧
        c.kernel_size ≤ w + 2 * c.padding then
      some [b, c.out_channels, h + 2 * c.padding + 1 - c.kernel_size,
        w + 2 * c.padding + 1 - c.kernel_size]
    else none
  | _ => none

/-- Shape semantics of `t.view(b, c, -1)`: the inferred trailing extent is
`numel / (b*c)`, defined when `b*c` is nonzero and divides the element
count. -/
def viewShape (b c : Nat) (s : Shape) : Option Shape :=
  if b * c ≠ 0 ∧ (b * c) ∣ s.prod then some [b, c, s.prod / (b * c)] else none

/-- Restrict to rank-3 shapes (`torch.cat(·, 2)` needs dim 2 to exist). -/
def rank3 : Option Shape → Option Shape
  | some [b, c, n] => some [b, c, n]
  | _ => none

/-- Concatenation of two rank-3 shapes along dim 2: the leading extents
must agree; the trailing extents add. -/
def cat2Shape : Option Shape → Option Shape → Option Shape
  | some [b, c, n], some [b2, c2, m] =>
    if b = b2 ∧ c = c2 then some [b, c, n + m] else none
  | _, _ => none

/-- Shape semantics of `torch.cat(·, 2)` on rank-3 tensors.  `torch.cat`
of an empty list is an error. -/
def catShapes : List (Option Shape) → Option Shape
  | [] => none
  | [os] => rank3 os
  | os :: os2 :: rest => cat2Shape (rank3 os) (catShapes (os2 :: rest))

mutual

/-- Shape of a symbolic tensor, given the shape `xsh` of the input and a
shape transformer `env i` for each external stage `i`. -/
def shapeOf (env : Nat → Shape → Shape) (xsh : Shape) : TExpr → Option Shape
  | .input => some xsh
  | .stage i t => (shapeOf env xsh t).map (env i)
  | .conv c t => (shapeOf env xsh t).bind (convShape c)
  | .viewB s c t =>
    match shapeOf env xsh s, shapeOf env xsh t with
    | some ss, some ts =>
      match ss.head? with
      | some b => viewShape b c ts
      | none => none
    | _, _ => none
  | .cat2 ts => catShapes (shapesOf env xsh ts)
  | .contig t => shapeOf env xsh t
  | .softmax _ t => shapeOf env xsh t

/-- Shapes of a list of symbolic tensors. -/
def shapesOf (env : Nat → Shape → Shape) (xsh : Shape) : List TExpr → List (Option Shape)
  | [] => []
  | t :: ts => shapeOf env xsh t :: shapesOf env xsh ts

end

mutual

/-- Number of head-convolution applications recorded in an expression. -/
def convCount : TExpr → Nat
  | .input => 0
  | .stage _ t => convCount t
  | .conv _ t => convCount t + 1
  | .viewB s _ t => convCount s + convCount t
  | .cat2 ts => convCountL ts
  | .contig t => convCount t
  | .softmax _ t => convCount t

/-- Total head-convolution applications over a list of expressions. -/
def convCountL : List TExpr → Nat
  | [] => 0
  | t :: ts => convCount t + convCountL ts

end

mutual

/-- Number of softmax applications recorded in an expression. -/
def smCount : TExpr → Nat
  | .input => 0
  | .stage _ t => smCount t
  | .conv _ t => smCount t
  | .viewB s _ t => smCount s + smCount t
  | .cat2 ts => smCountL ts
  | .contig t => smCount t
  | .softmax _ t => smCount t + 1

/-- Total softmax applications over a list of expressions. -/
def smCountL : List TExpr → Nat
  | [] => 0
  | t :: ts => smCount t + smCountL ts

end

/-- The `SSD` module: the fields stored by `SSD.__init__`.  Stages are
identified by opaque ids (their numeric behaviour lives in the external
engine); `softmax` records the `dim` argument of the stored
`nn.Softmax(dim=-1)`; `feature_layer` is `feature_layer[0]` as stored by
the constructor. -/
structure SSD where
  num_classes : Nat
  base : List Nat
  extras : List Nat
  loc : List Conv2d
  conf : List Conv2d
  softmax : Int
  feature_layer : List LayerDesc

/-- `SSD.__init__(base, extras, head, feature_layer, num_classes)`. -/
def SSD.init (base extras : List Nat) (head : List Conv2d × List Conv2d)
    (feature_layer : List LayerDesc × List Nat) (num_classes : Nat) : SSD :=
  { num_classes := num_classes
    base := base
    extras := extras
    loc := head.1
    conf := head.2
    softmax := -1
    feature_layer := feature_layer.1 }

/-- The membership test `k in self.feature_layer` for a base-stage index
`k` (a Python int equals only the int descriptors). -/
def SSD.isTap (m : SSD) (k : Nat) : Bool :=
  decide (LayerDesc.num k ∈ m.feature_layer)

/-- One of the two stage loops of `SSD.forward`: thread `x` through the
stages in order, collecting the running value after stage index `k`
whenever `tap k` holds.  The base loop taps via isTap; the extras
loop collects unconditionally. -/
def runStages (stages : List Nat) (tap : Nat → Bool) (k : Nat) (x : TExpr) :
    TExpr × List TExpr :=
  match stages with
  | [] => (x, [])
  | s :: rest =>
    let x2 := TExpr.stage s x
    let r := runStages rest tap (k + 1) x2
    (r.1, (if tap k then [x2] else []) ++ r.2)

/-- The `sources` list built by `SSD.forward`: tapped base outputs followed
by every extra-stage output. -/
def SSD.sources (m : SSD) (x : TExpr) : List TExpr :=
  let r := runStages m.base (fun k => m.isTap k) 0 x
  let r2 := runStages m.extras (fun _ => true) 0 r.1
  r.2 ++ r2.2

/-- `loc.append(l(x).view(x.size(0), 4, -1))` for one `(x, l, c)` triple. -/
def locHead (p : TExpr × Conv2d × Conv2d) : TExpr :=
  TExpr.viewB p.1 4 (TExpr.conv p.2.1 p.1)

/-- `conf.append(c(x).view(x.size(0), self.num_classes, -1))` for one
`(x, l, c)` triple. -/
def confHead (num_classes : Nat) (p : TExpr × Conv2d × Conv2d) : TExpr :=
  TExpr.viewB p.1 num_classes (TExpr.conv p.2.2 p.1)

/-- The concatenated localization output `torch.cat(loc, 2).contiguous()`. -/
def SSD.locOut (m : SSD) (x : TExpr) : TExpr :=
  TExpr.contig (TExpr.cat2 (((m.sources x).zip (m.loc.zip m.conf)).map locHead))

/-- The concatenated confidence output `torch.cat(conf, 2).contiguous()`. -/
def SSD.confOut (m : SSD) (x : TExpr) : TExpr :=
  TExpr.contig
    (TExpr.cat2 (((m.sources x).zip (m.loc.zip m.conf)).map (confHead m.num_classes)))

/-- `SSD.forward(x, phase)`: collect sources; in phase `"feature"` return
them; otherwise run the multibox head over `zip(sources, self.loc,
self.conf)` and return the two concatenated tensors. -/
def SSD.forward (m : SSD) (x : TExpr) (phase : String) :
    Sum (List TExpr) (TExpr × TExpr) :=
  let sources := m.sources x
  if phase = "feature" then Sum.inl sources
  else Sum.inr (m.locOut x, m.confOut x)

/-- `forward` as an explicit state transformer on the module: the method
reads `self` but assigns no attribute, so the post-state is the pre-state. -/
def SSD.forwardCall (m : SSD) (x : TExpr) (phase : String) :
    (Sum (List TExpr) (TExpr × TExpr)) × SSD :=
  (m.forward x phase, m)

/-- The external `parse_feature_layer(layer, in_channels, depth)`
collaborator: returns the ids of zero or more stages implementing the
transition (`in_channels` is `None` before the first iteration). -/
abbrev ParseFn := LayerDesc → Option Nat → Nat → List Nat

/-- The loop body of `add_extras`: iterate
`zip(feature_layer[0], feature_layer[1], mbox)`, call the parser, set
`in_channels = depth`, and append one loc and one conf convolution. -/
def addExtrasLoop (parse : ParseFn) (num_classes : Nat) :
    Option Nat → List (LayerDesc × Nat × Nat) → List Nat × List Conv2d × List Conv2d
  | _, [] => ([], [], [])
  | in_channels, (layer, depth, box) :: rest =>
    let ex := parse layer in_channels depth
    let r := addExtrasLoop parse num_classes (some depth) rest
    (ex ++ r.1, Conv2d.mk depth (box * 4) 3 1 :: r.2.1,
      Conv2d.mk depth (box * num_classes) 3 1 :: r.2.2)

/-- `add_extras(base, feature_layer, mbox, num_classes)`. -/
def add_extras (parse : ParseFn) (base : List Nat)
    (feature_layer : List LayerDesc × List Nat) (mbox : List Nat)
    (num_classes : Nat) : List Nat × List Nat × (List Conv2d × List Conv2d) :=
  let r := addExtrasLoop parse num_classes none
    (feature_layer.1.zip (feature_layer.2.zip mbox))
  (base, r.1, (r.2.1, r.2.2))

/-- `build_ssd(base, feature_layer, mbox, num_classes)`. -/
def build_ssd (parse : ParseFn) (base : Unit → List Nat)
    (feature_layer : List LayerDesc × List Nat) (mbox : List Nat)
    (num_classes : Nat) : SSD :=
  let r := add_extras parse (base ()) feature_layer mbox num_classes
  SSD.init r.1 r.2.1 r.2.2 feature_layer num_classes

/-- The input-channel threading performed by the `add_extras` loop: each
parser call receives the running `in_channels` (initially `None`), which is
set to the target depth of the scale right after the call. -/
def threadExtras (parse : ParseFn) : Option Nat → List (LayerDesc × Nat × Nat) → List Nat
  | _, [] => []
  | in_channels, (layer, depth, _) :: rest =>
    parse layer in_channels depth ++ threadExtras parse (some depth) rest

/-- Number of base-stage indices, counting from `k`, whose output the
forward pass would tap. -/
def tapCountFrom (tap : Nat → Bool) : Nat → List Nat → Nat
  | _, [] => 0
  | k, _ :: rest => (if tap k then 1 else 0) + tapCountFrom tap (k + 1) rest

/-- Number of base stages of `m` whose output is appended to `sources`. -/
def SSD.tapCount (m : SSD) : Nat :=
  tapCountFrom (fun k => m.isTap k) 0 m.base

/- ### Helper lemmas -/

theorem shapesOf_eq_map (env : Nat → Shape → Shape) (xsh : Shape) :
    ∀ l : List TExpr, shapesOf env xsh l = l.map (shapeOf env xsh)
  | [] => rfl
  | t :: ts => by simp [shapesOf, shapesOf_eq_map env xsh ts]

theorem smCountL_eq_sum : ∀ l : List TExpr, smCountL l = (l.map smCount).sum
  | [] => rfl
  | t :: ts => by simp [smCountL, smCountL_eq_sum ts]

theorem addExtrasLoop_eq (parse : ParseFn) (nc : Nat) :
    ∀ (trips : List (LayerDesc × Nat × Nat)) (in_channels : Option Nat),
    addExtrasLoop parse nc in_channels trips =
      (threadExtras parse in_channels trips,
        trips.map (fun t => Conv2d.mk t.2.1 (t.2.2 * 4) 3 1),
        trips.map (fun t => Conv2d.mk t.2.1 (t.2.2 * nc) 3 1))
  | [], _ => rfl
  | (layer, depth, box) :: rest, in_channels => by
    simp [addExtrasLoop, threadExtras, addExtrasLoop_eq parse nc rest (some depth)]

theorem runStages_fst (f : TExpr → Nat) (hf : ∀ i t, f (TExpr.stage i t) = f t)
    (tap : Nat → Bool) :
    ∀ (ss : List Nat) (k : Nat) (x : TExpr), f (runStages ss tap k x).1 = f x
  | [], _, _ => rfl
  | s :: rest, k, x => by
    have ih := runStages_fst f hf tap rest (k + 1) (TExpr.stage s x)
    simpa [runStages, hf] using ih

theorem runStages_mem (f : TExpr → Nat) (hf : ∀ i t, f (TExpr.stage i t) = f t)
    (tap : Nat → Bool) :
    ∀ (ss : List Nat) (k : Nat) (x : TExpr) (t : TExpr),
      t ∈ (runStages ss tap k x).2 → f t = f x
  | [], _, _, _, h => absurd h (by simp [runStages])
  | s :: rest, k, x, t, h => by
    rw [runStages] at h
    rcases List.mem_append.1 h with h1 | h2
    · rcases Bool.eq_false_or_eq_true (tap k) with hk | hk <;> simp [hk] at h1
      rw [h1, hf]
    · have := runStages_mem f hf tap rest (k + 1) (TExpr.stage s x) t h2
      rwa [hf] at this

theorem runStages_length (tap : Nat → Bool) :
    ∀ (ss : List Nat) (k : Nat) (x : TExpr),
      (runStages ss tap k x).2.length = tapCountFrom tap k ss
  | [], _, _ => rfl
  | s :: rest, k, x => by
    rw [runStages, tapCountFrom]
    rcases Bool.eq_false_or_eq_true (tap k) with hk | hk <;>
      simp [hk, runStages_length tap rest (k + 1) (TExpr.stage s x), Nat.add_comm]

theorem tapCountFrom_true :
    ∀ (k : Nat) (ss : List Nat), tapCountFrom (fun _ => true) k ss = ss.length
  | _, [] => rfl
  | k, _ :: rest => by
    simp [tapCountFrom, tapCountFrom_true (k + 1) rest, Nat.add_comm]

theorem sources_length (m : SSD) (x : TExpr) :
    (m.sources x).length = m.tapCount + m.extras.length := by
  rw [SSD.sources, SSD.tapCount]
  simp [List.length_append, runStages_length, tapCountFrom_true]

theorem sources_mem (f : TExpr → Nat) (hf : ∀ i t, f (TExpr.stage i t) = f t)
    (m : SSD) (x : TExpr) (t : TExpr) (h : t ∈ m.sources x) : f t = f x := by
  rw [SSD.sources] at h
  rcases List.mem_append.1 h with h1 | h2
  · exact runStages_mem f hf _ _ _ _ _ h1
  · rw [runStages_mem f hf _ _ _ _ _ h2]
    exact runStages_fst f hf _ _ _ _

theorem convShape_31 (ch oc b h w : Nat) (hh : 1 ≤ h) (hw : 1 ≤ w) :
    convShape (Conv2d.mk ch oc 3 1) [b, ch, h, w] = some [b, oc, h, w] := by
  show (if ch = ch ∧ 3 ≤ h + 2 * 1 ∧ 3 ≤ w + 2 * 1 then
      some [b, oc, h + 2 * 1 + 1 - 3, w + 2 * 1 + 1 - 3] else none) = some [b, oc, h, w]
  rw [if_pos ⟨rfl, by omega, by omega⟩]
  have e1 : h + 2 * 1 + 1 - 3 = h := by omega
  have e2 : w + 2 * 1 + 1 - 3 = w := by omega
  rw [e1, e2]

theorem viewShape_exact (b c q : Nat) (hb : b ≠ 0) (hc : c ≠ 0) (s : Shape)
    (hs : s.prod = b * c * q) :
    viewShape b c s = some [b, c, q] := by
  have hbc : 0 < b * c := Nat.pos_of_ne_zero (Nat.mul_ne_zero hb hc)
  rw [viewShape, if_pos ⟨Nat.pos_iff_ne_zero.1 hbc, ⟨q, hs⟩⟩, hs,
    Nat.mul_div_cancel_left q hbc]

/-- Per-scale summary used to state the shape contract: channel count,
spatial extents, and anchor-box count of one feature scale. -/
structure ScaleData where
  ch : Nat
  h : Nat
  w : Nat
  box : Nat
  deriving DecidableEq, Repr

/-- The localization convolution the builder creates for a scale. -/
def locConvOf (d : ScaleData) : Conv2d := Conv2d.mk d.ch (d.box * 4) 3 1

/-- The classification convolution the builder creates for a scale. -/
def confConvOf (nc : Nat) (d : ScaleData) : Conv2d := Conv2d.mk d.ch (d.box * nc) 3 1

/-- A source tensor matches its scale summary: its shape is
`[b, ch, h, w]` with nonempty spatial extents. -/
def SrcFits (env : Nat → Shape → Shape) (xsh : Shape) (b : Nat)
    (t : TExpr) (d : ScaleData) : Prop :=
  shapeOf env xsh t = some [b, d.ch, d.h, d.w] ∧ 1 ≤ d.h ∧ 1 ≤ d.w

theorem shapeOf_locHead (env : Nat → Shape → Shape) (xsh : Shape) (b : Nat)
    (hb : b ≠ 0) (t : TExpr) (d : ScaleData) (c2 : Conv2d)
    (hfit : SrcFits env xsh b t d) :
    shapeOf env xsh (locHead (t, locConvOf d, c2)) = some [b, 4, d.box * (d.h * d.w)] := by
  obtain ⟨ht, hh, hw⟩ := hfit
  have hconv : shapeOf env xsh (TExpr.conv (locConvOf d) t)
      = some [b, d.box * 4, d.h, d.w] := by
    rw [shapeOf, ht, Option.some_bind, locConvOf, convShape_31 d.ch (d.box * 4) b d.h d.w hh hw]
  rw [locHead, shapeOf, ht, hconv]
  show viewShape b 4 [b, d.box * 4, d.h, d.w] = some [b, 4, d.box * (d.h * d.w)]
  refine viewShape_exact b 4 (d.box * (d.h * d.w)) hb (by omega) _ ?_
  show b * (d.box * 4 * (d.h * (d.w * 1))) = b * 4 * (d.box * (d.h * d.w))
  ring

theorem shapeOf_confHead (env : Nat → Shape → Shape) (xsh : Shape) (b nc : Nat)
    (hb : b ≠ 0) (hnc : nc ≠ 0) (t : TExpr) (d : ScaleData) (c1 : Conv2d)
    (hfit : SrcFits env xsh b t d) :
    shapeOf env xsh (confHead nc (t, c1, confConvOf nc d))
      = some [b, nc, d.box * (d.h * d.w)] := by
  obtain ⟨ht, hh, hw⟩ := hfit
  have hconv : shapeOf env xsh (TExpr.conv (confConvOf nc d) t)
      = some [b, d.box * nc, d.h, d.w] := by
    rw [shapeOf, ht, Option.some_bind, confConvOf,
      convShape_31 d.ch (d.box * nc) b d.h d.w hh hw]
  rw [confHead, shapeOf, ht, hconv]
  show viewShape b nc [b, d.box * nc, d.h, d.w] = some [b, nc, d.box * (d.h * d.w)]
  refine viewShape_exact b nc (d.box * (d.h * d.w)) hb hnc _ ?_
  show b * (d.box * nc * (d.h * (d.w * 1))) = b * nc * (d.box * (d.h * d.w))
  ring

theorem headParts_shapes (env : Nat → Shape → Shape) (xsh : Shape) (b nc : Nat)
    (hb : b ≠ 0) (hnc : nc ≠ 0) :
    ∀ (srcs : List TExpr) (scales : List ScaleData),
      List.Forall₂ (SrcFits env xsh b) srcs scales →
      shapesOf env xsh
          ((srcs.zip ((scales.map locConvOf).zip (scales.map (confConvOf nc)))).map locHead)
        = scales.map (fun d => some [b, 4, d.box * (d.h * d.w)]) ∧
      shapesOf env xsh
          ((srcs.zip ((scales.map locConvOf).zip (scales.map (confConvOf nc)))).map
            (confHead nc))
        = scales.map (fun d => some [b, nc, d.box * (d.h * d.w)])
  | _, _, List.Forall₂.nil => by simp [shapesOf]
  | _, _, @List.Forall₂.cons _ _ _ t d srcs scales hfit hrest => by
    have ih := headParts_shapes env xsh b nc hb hnc srcs scales hrest
    simp only [List.map_cons]
    rw [List.zip_cons_cons, List.zip_cons_cons]
    simp only [List.map_cons, shapesOf]
    rw [shapeOf_locHead env xsh b hb t d _ hfit,
      shapeOf_confHead env xsh b nc hb hnc t d _ hfit, ih.1, ih.2]
    exact ⟨rfl, rfl⟩

theorem catShapes_const (b c : Nat) :
    ∀ ns : List Nat, ns ≠ [] →
      catShapes (ns.map fun n => some [b, c, n]) = some [b, c, ns.sum]
  | [], h => absurd rfl h
  | [n], _ => by simp [catShapes, rank3]
  | n :: n2 :: rest, _ => by
    have ih := catShapes_const b c (n2 :: rest) (by simp)
    simp only [List.map_cons] at ih ⊢
    rw [catShapes, ih]
    simp [rank3, cat2Shape]

theorem catShapes_boxes (b c : Nat) (scales : List ScaleData) (hne : scales ≠ []) :
    catShapes (scales.map fun d => some [b, c, d.box * (d.h * d.w)])
      = some [b, c, (scales.map fun d => d.box * (d.h * d.w)).sum] := by
  have h := catShapes_const b c (scales.map fun d => d.box * (d.h * d.w))
    (by simpa [List.map_eq_nil_iff] using hne)
  rw [List.map_map] at h
  exact h

theorem smCount_out_zero (m : SSD) (x : TExpr) (hx : smCount x = 0)
    (f : TExpr × Conv2d × Conv2d → TExpr)
    (hf : ∀ t l c, smCount (f (t, l, c)) = smCount t + smCount t) :
    smCount (TExpr.contig (TExpr.cat2 (((m.sources x).zip (m.loc.zip m.conf)).map f)))
      = 0 := by
  rw [show smCount (TExpr.contig (TExpr.cat2 (((m.sources x).zip (m.loc.zip m.conf)).map f)))
      = smCountL (((m.sources x).zip (m.loc.zip m.conf)).map f) from rfl]
  rw [smCountL_eq_sum]
  refine List.sum_eq_zero ?_
  intro n hn
  rw [List.map_map] at hn
  obtain ⟨p, hpmem, hpn⟩ := List.mem_map.1 hn
  obtain ⟨t, l, c⟩ := p
  have ht : t ∈ m.sources x := (List.of_mem_zip hpmem).1
  have h0 : smCount t = 0 := by
    rw [sources_mem smCount (fun _ _ => rfl) m x t ht, hx]
  rw [← hpn]
  show smCount (f (t, l, c)) = 0
  rw [hf t l c, h0]

/- ### Concrete instances used by witnesses and counterexamples -/

/-- A stage-shape environment: stage 1 produces a 10×10 512-channel map on
batch 2, stage 2 a 5×5 256-channel map; other stages keep their input
shape. -/
def envEx : Nat → Shape → Shape := fun i s =>
  if i = 1 then [2, 512, 10, 10] else if i = 2 then [2, 256, 5, 5] else s

/-- Input batch shape `[2, 3, 300, 300]`. -/
def xshEx : Shape := [2, 3, 300, 300]

/-- A two-scale detector: two base stages tapped at index 1, one extra
stage, box counts 4 and 6, 21 classes. -/
def mEx : SSD :=
  { num_classes := 21
    base := [0, 1]
    extras := [2]
    loc := [Conv2d.mk 512 16 3 1, Conv2d.mk 256 24 3 1]
    conf := [Conv2d.mk 512 84 3 1, Conv2d.mk 256 126 3 1]
    softmax := -1
    feature_layer := [LayerDesc.num 1] }

/-- Scale summaries matching `mEx` under `envEx`. -/
def scalesEx : List ScaleData :=
  [ScaleData.mk 512 10 10 4, ScaleData.mk 256 5 5 6]

/-- A misconfigured variant of `mEx`: two extra stages, so three sources
feed two head pairs. -/
def mExBad : SSD :=
  { num_classes := 21
    base := [0, 1]
    extras := [2, 3]
    loc := [Conv2d.mk 512 16 3 1, Conv2d.mk 256 24 3 1]
    conf := [Conv2d.mk 512 84 3 1, Conv2d.mk 256 126 3 1]
    softmax := -1
    feature_layer := [LayerDesc.num 1] }

/-- A layer parser that expands every descriptor into one stage. -/
def parseEx : ParseFn := fun _ _ depth => [depth]

/-- A layer parser that treats int descriptors as backbone taps (no new
stage) and string descriptors as one new stage. -/
def parseTap : ParseFn := fun layer _ depth =>
  match layer with
  | LayerDesc.num _ => []
  | LayerDesc.tag _ => [depth]

/-- A backbone factory with two stages. -/
def base0W : Unit → List Nat := fun _ => [0, 1]

/-- Feature-layer configuration: tap base stage 1, then one extra stage. -/
def flW : List LayerDesc × List Nat :=
  ([LayerDesc.num 1, LayerDesc.tag "S"], [512, 256])

/-- The detector built from `parseTap`, `base0W`, `flW`, boxes [4, 6], 21
classes. -/
def mW : SSD := build_ssd parseTap base0W flW [4, 6] 21

/- ### Claims -/

/-- Claim C1: for a validly configured detector (heads generated from the
per-scale box counts, each source matching the input channels of its head) and
any forward call in mode "train" or "eval", the returned loc tensor has
shape [batch, 4, total_anchors] and the conf tensor has shape
[batch, num_classes, total_anchors], where total_anchors is the sum over
scales of box count times spatial positions; both results are the
contiguous concatenations, along the trailing axis, of the per-scale
reshaped head outputs. -/
theorem C1_forward_shapes (env : Nat → Shape → Shape) (xsh : Shape) (m : SSD)
    (x : TExpr) (b : Nat) (scales : List ScaleData)
    (hb : b ≠ 0) (hnc : m.num_classes ≠ 0) (hne : scales ≠ [])
    (hloc : m.loc = scales.map locConvOf)
    (hconf : m.conf = scales.map (confConvOf m.num_classes))
    (hfit : List.Forall₂ (SrcFits env xsh b) (m.sources x) scales)
    (phase : String) (hp : phase = "train" ∨ phase = "eval") :
    m.forward x phase = Sum.inr (m.locOut x, m.confOut x) ∧
    shapeOf env xsh (m.locOut x)
      = some [b, 4, (scales.map fun d => d.box * (d.h * d.w)).sum] ∧
    shapeOf env xsh (m.confOut x)
      = some [b, m.num_classes, (scales.map fun d => d.box * (d.h * d.w)).sum] := by
  have hpf : phase ≠ "feature" := by rcases hp with h | h <;> subst h <;> decide
  refine ⟨?_, ?_, ?_⟩
  · simp only [SSD.forward]
    rw [if_neg hpf]
  · simp only [SSD.locOut, shapeOf]
    rw [hloc, hconf, (headParts_shapes env xsh b m.num_classes hb hnc _ _ hfit).1,
      catShapes_boxes b 4 scales hne]
  · simp only [SSD.confOut, shapeOf]
    rw [hloc, hconf, (headParts_shapes env xsh b m.num_classes hb hnc _ _ hfit).2,
      catShapes_boxes b m.num_classes scales hne]

/-- Witness for C1: the concrete two-scale detector `mEx` under `envEx`,
batch 2, spatial maps 10×10 and 5×5, boxes 4 and 6; total anchors
4·100 + 6·25 = 550. -/
theorem C1_witness :
    (2 : Nat) ≠ 0 ∧ mEx.num_classes ≠ 0 ∧ scalesEx ≠ ([] : List ScaleData) ∧
    mEx.loc = scalesEx.map locConvOf ∧
    mEx.conf = scalesEx.map (confConvOf mEx.num_classes) ∧
    List.Forall₂ (SrcFits envEx xshEx 2) (mEx.sources TExpr.input) scalesEx ∧
    (mEx.forward TExpr.input "train"
        = Sum.inr (mEx.locOut TExpr.input, mEx.confOut TExpr.input) ∧
      shapeOf envEx xshEx (mEx.locOut TExpr.input) = some [2, 4, 550] ∧
      shapeOf envEx xshEx (mEx.confOut TExpr.input) = some [2, 21, 550]) :=
  ⟨by decide, by decide, by decide, by decide, by decide,
    List.Forall₂.cons ⟨rfl, by decide, by decide⟩
      (List.Forall₂.cons ⟨rfl, by decide, by decide⟩ List.Forall₂.nil),
    C1_forward_shapes envEx xshEx mEx TExpr.input 2 scalesEx (by decide) (by decide)
      (by decide) (by decide) (by decide)
      (List.Forall₂.cons ⟨rfl, by decide, by decide⟩
        (List.Forall₂.cons ⟨rfl, by decide, by decide⟩ List.Forall₂.nil))
      "train" (Or.inl rfl)⟩

/-- Claim C2 counterexample: calling `add_extras` with descriptor and depth
sequences of length 2 but a box-count sequence of length 1 does not raise:
the zip silently truncates, and an extra stage (id 256) together with one
head pair is constructed and returned normally. -/
theorem C2_counterexample :
    add_extras parseEx [0] ([LayerDesc.tag "S", LayerDesc.tag "S"], [256, 512]) [4] 21
      = ([0], [256], ([Conv2d.mk 256 16 3 1], [Conv2d.mk 256 84 3 1])) := by
  decide

/-- Claim C2 amended: `add_extras` performs no validation at all: the three
parallel configuration sequences are zipped, silently truncating to the
shortest, the returned head lists have that truncated length, and
non-positive box counts flow into the convolutions unchecked. -/
theorem C2_amended (parse : ParseFn) (base : List Nat)
    (fl : List LayerDesc × List Nat) (mbox : List Nat) (nc : Nat) :
    (add_extras parse base fl mbox nc).2.2.1.length
        = min fl.1.length (min fl.2.length mbox.length) ∧
    (add_extras parse base fl mbox nc).2.2.2.length
        = min fl.1.length (min fl.2.length mbox.length) := by
  simp [add_extras, addExtrasLoop_eq, List.length_zip]

/-- Claim C3: a forward call in mode "feature" returns the sources list,
one feature expression per scale in construction order, and invokes no
loc/conf convolution: every returned source records exactly the
convolution applications already present in the input. -/
theorem C3_feature_mode (m : SSD) (x : TExpr) :
    m.forward x "feature" = Sum.inl (m.sources x) ∧
    (m.sources x).map convCount = (m.sources x).map (fun _ => convCount x) := by
  constructor
  · simp [SSD.forward]
  · exact List.map_congr_left fun t ht =>
      sources_mem convCount (fun _ _ => rfl) m x t ht

/-- Claim C4 counterexample: a forward call with the unrecognized mode
"deploy" does not fail: it silently falls through to the head-computation
path and returns the (loc, conf) pair. -/
theorem C4_counterexample :
    mEx.forward TExpr.input "deploy"
      = Sum.inr (mEx.locOut TExpr.input, mEx.confOut TExpr.input) := rfl

/-- Claim C4 amended: `forward` compares the mode against "feature" only;
every other mode value, recognized or not, silently takes the default
head-computation path and returns the (loc, conf) pair without any
error. -/
theorem C4_amended (m : SSD) (x : TExpr) (phase : String)
    (hp : phase ≠ "feature") :
    m.forward x phase = Sum.inr (m.locOut x, m.confOut x) := by
  simp only [SSD.forward]
  rw [if_neg hp]

/-- Witness for the amended C4 at the unrecognized mode "bogus". -/
theorem C4_witness :
    ("bogus" : String) ≠ "feature" ∧
    mEx.forward TExpr.input "bogus"
      = Sum.inr (mEx.locOut TExpr.input, mEx.confOut TExpr.input) :=
  ⟨by decide, C4_amended mEx TExpr.input "bogus" (by decide)⟩

/-- Claim C5: the builder loop sets the running input-channel count to the
target depth of that scale after invoking the external layer parser (the next
parser call receives that depth), and appends per scale a localization
convolution (in = depth, out = box·4, kernel 3, padding 1) and a
classification convolution (in = depth, out = box·num_classes, kernel 3,
padding 1) to the respective head lists. -/
theorem C5_builder_heads (parse : ParseFn) (base : List Nat)
    (fl : List LayerDesc × List Nat) (mbox : List Nat) (nc : Nat) :
    add_extras parse base fl mbox nc
      = (base, threadExtras parse none (fl.1.zip (fl.2.zip mbox)),
          ((fl.1.zip (fl.2.zip mbox)).map (fun t => Conv2d.mk t.2.1 (t.2.2 * 4) 3 1),
            (fl.1.zip (fl.2.zip mbox)).map
              (fun t => Conv2d.mk t.2.1 (t.2.2 * nc) 3 1))) := by
  simp [add_extras, addExtrasLoop_eq]

/-- Claim C6: for a detector built by `build_ssd` from parallel sequences
of equal length whose taps and extra stages cover exactly the configured
scales, after any forward pass the number of sources equals the number of
loc convolutions, conf convolutions, and box counts. -/
theorem C6_invariant (parse : ParseFn) (base0 : Unit → List Nat)
    (fl : List LayerDesc × List Nat) (mbox : List Nat) (nc : Nat)
    (m : SSD) (hm : m = build_ssd parse base0 fl mbox nc)
    (h1 : fl.1.length = mbox.length) (h2 : fl.2.length = mbox.length)
    (x : TExpr) (hv : m.tapCount + m.extras.length = mbox.length) :
    m.forward x "feature" = Sum.inl (m.sources x) ∧
    (m.sources x).length = m.loc.length ∧
    m.loc.length = m.conf.length ∧ m.conf.length = mbox.length := by
  have hloc : m.loc.length = mbox.length := by
    subst hm
    simp [build_ssd, add_extras, SSD.init, addExtrasLoop_eq, List.length_zip, h1, h2]
  have hconf : m.conf.length = mbox.length := by
    subst hm
    simp [build_ssd, add_extras, SSD.init, addExtrasLoop_eq, List.length_zip, h1, h2]
  refine ⟨by simp [SSD.forward], ?_, hloc.trans hconf.symm, hconf⟩
  rw [sources_length, hv, hloc]

/-- Witness for C6 at the concretely built detector `mW` (two scales: one
backbone tap, one extra stage, boxes [4, 6]). -/
theorem C6_witness :
    flW.1.length = [4, 6].length ∧ flW.2.length = [4, 6].length ∧
    mW.tapCount + mW.extras.length = [4, 6].length ∧
    (mW.forward TExpr.input "feature" = Sum.inl (mW.sources TExpr.input) ∧
      (mW.sources TExpr.input).length = mW.loc.length ∧
      mW.loc.length = mW.conf.length ∧ mW.conf.length = [4, 6].length) :=
  ⟨by decide, by decide, by decide,
    C6_invariant parseTap base0W flW [4, 6] 21 mW rfl (by decide) (by decide)
      TExpr.input (by decide)⟩

/-- Claim C7: `forward` is a pure function of the immutable
structure, the input, and the mode: as a state transformer it returns the
module unchanged (the transient lists are locals rebuilt per call), and a
second call on the returned state with the same input and mode yields an
identical result. -/
theorem C7_pure (m : SSD) (x : TExpr) (phase : String) :
    (m.forwardCall x phase).2 = m ∧
    ((m.forwardCall x phase).2.forwardCall x phase).1 = (m.forwardCall x phase).1 :=
  ⟨rfl, rfl⟩

/-- Claim C8: construction stores a softmax capability (`nn.Softmax` with
dim -1), yet a forward call in mode "train" or "eval" applies no softmax
or other normalization to the returned outputs: for a softmax-free input
the returned loc and conf expressions record zero softmax applications. -/
theorem C8_no_softmax (parse : ParseFn) (base0 : Unit → List Nat)
    (fl : List LayerDesc × List Nat) (mbox : List Nat) (nc : Nat)
    (m : SSD) (hm : m = build_ssd parse base0 fl mbox nc)
    (x : TExpr) (hx : smCount x = 0) (phase : String)
    (hp : phase = "train" ∨ phase = "eval") :
    m.softmax = -1 ∧
    m.forward x phase = Sum.inr (m.locOut x, m.confOut x) ∧
    smCount (m.locOut x) = 0 ∧ smCount (m.confOut x) = 0 := by
  have hpf : phase ≠ "feature" := by rcases hp with h | h <;> subst h <;> decide
  refine ⟨by subst hm; rfl, ?_, ?_, ?_⟩
  · simp only [SSD.forward]
    rw [if_neg hpf]
  · exact smCount_out_zero m x hx locHead (fun _ _ _ => rfl)
  · exact smCount_out_zero m x hx (confHead m.num_classes) (fun _ _ _ => rfl)

/-- Witness for C8 at the concretely built detector `mW` in mode "eval". -/
theorem C8_witness :
    smCount TExpr.input = 0 ∧
    (mW.softmax = -1 ∧
      mW.forward TExpr.input "eval"
        = Sum.inr (mW.locOut TExpr.input, mW.confOut TExpr.input) ∧
      smCount (mW.locOut TExpr.input) = 0 ∧ smCount (mW.confOut TExpr.input) = 0) :=
  ⟨rfl, C8_no_softmax parseTap base0W flW [4, 6] 21 mW rfl TExpr.input rfl "eval"
    (Or.inr rfl)⟩

/-- Claim C9: any two mode values both different from "feature", including
arbitrary unrecognized strings, drive the identical head-computation path:
the mode affects the result only through the single equality test against
"feature". -/
theorem C9_mode_irrelevant (m : SSD) (x : TExpr) (p1 p2 : String)
    (h1 : p1 ≠ "feature") (h2 : p2 ≠ "feature") :
    m.forward x p1 = m.forward x p2 := by
  simp only [SSD.forward]
  rw [if_neg h1, if_neg h2]

/-- Witness for C9 at the modes "train" and "bogus". -/
theorem C9_witness :
    ("train" : String) ≠ "feature" ∧ ("bogus" : String) ≠ "feature" ∧
    mEx.forward TExpr.input "train" = mEx.forward TExpr.input "bogus" :=
  ⟨by decide, by decide,
    C9_mode_irrelevant mEx TExpr.input "train" "bogus" (by decide) (by decide)⟩

/-- Claim C10: when the sources and head lists have different lengths,
forward in a non-"feature" mode raises no error: the head loop zips the
three lists, silently dropping excess entries, and both concatenated
outputs cover exactly min(len sources, len loc, len conf) scales. -/
theorem C10_zip_truncates (m : SSD) (x : TExpr) (phase : String)
    (hp : phase ≠ "feature") :
    m.forward x phase = Sum.inr (m.locOut x, m.confOut x) ∧
    (((m.sources x).zip (m.loc.zip m.conf)).map locHead).length
      = min (m.sources x).length (min m.loc.length m.conf.length) ∧
    (((m.sources x).zip (m.loc.zip m.conf)).map (confHead m.num_classes)).length
      = min (m.sources x).length (min m.loc.length m.conf.length) := by
  refine ⟨?_, ?_, ?_⟩
  · simp only [SSD.forward]
    rw [if_neg hp]
  · simp [List.length_zip]
  · simp [List.length_zip]

/-- Witness for C10 at `mExBad` (three sources, two head pairs): the
outputs cover min(3, 2, 2) = 2 scales and no error occurs. -/
theorem C10_witness :
    ("train" : String) ≠ "feature" ∧
    (mExBad.sources TExpr.input).length = 3 ∧ mExBad.loc.length = 2 ∧
    mExBad.conf.length = 2 ∧
    (mExBad.forward TExpr.input "train"
        = Sum.inr (mExBad.locOut TExpr.input, mExBad.confOut TExpr.input) ∧
      (((mExBad.sources TExpr.input).zip (mExBad.loc.zip mExBad.conf)).map
          locHead).length = 2 ∧
      (((mExBad.sources TExpr.input).zip (mExBad.loc.zip mExBad.conf)).map
          (confHead mExBad.num_classes)).length = 2) :=
  ⟨by decide, by decide, by decide, by decide,
    C10_zip_truncates mExBad TExpr.input "train" (by decide)⟩

end SSDS
